import Mathlib

/-!
Verification of the image-resizer repository (`src/resize.py`).

The Python module defines a class `ImageResizer` with:
  * `_calculate_size(original_size, width, height, scale, maintain_aspect)` —
    a pure sizing-policy function (lines 145–166);
  * `_get_images(folder)` — enumeration of image files by glob over an
    extension allow-list (lines 138–143);
  * `process_from_url` / `process_from_urls` / `process_from_folder` —
    orchestration with per-item error handling, filename derivation and
    save preparation (RGBA flattening).

The embedding below models Python numbers exactly: Python `int` is ℤ
(arbitrary precision), Python float arithmetic is modelled by exact
rational arithmetic ℚ (true division `/` is exact division), and Python
`int(x)` on a float is truncation toward zero.  Optional keyword
arguments defaulting to `None` are `Option` values; Python truthiness
(`if scale:`) treats `None`, `0`, `0.0` and `""` as false.
-/

namespace ImageResizer

/-- Python `int(x)` applied to a float: truncation toward zero.
On a rational `num/den` in lowest terms (`den > 0`) this is the
sign-truncating integer division of `num` by `den`. -/
def pyInt (q : ℚ) : ℤ := q.num.tdiv q.den

/-- Python truthiness of an optional float (`None` and `0.0` are falsy). -/
def truthyQ : Option ℚ → Bool
  | none => false
  | some q => decide (q ≠ 0)

/-- Python truthiness of an optional int (`None` and `0` are falsy). -/
def truthyZ : Option ℤ → Bool
  | none => false
  | some z => decide (z ≠ 0)

/-- Python truthiness of an optional string (`None` and `""` are falsy). -/
def truthyS : Option String → Bool
  | none => false
  | some s => decide (s ≠ "")

/-- Embedding of `ImageResizer._calculate_size` (src/resize.py lines 145–166).

```
orig_w, orig_h = original_size
if scale:
    return (int(orig_w * scale), int(orig_h * scale))
if width and height:
    if maintain_aspect:
        ratio = min(width / orig_w, height / orig_h)
        return (int(orig_w * ratio), int(orig_h * ratio))
    else:
        return (width, height)
if width:
    ratio = width / orig_w
    return (width, int(orig_h * ratio))
if height:
    ratio = height / orig_h
    return (int(orig_w * ratio), height)
return original_size
``` -/
def calculateSize (origW origH : ℤ) (width height : Option ℤ) (scale : Option ℚ)
    (maintainAspect : Bool) : ℤ × ℤ :=
  if truthyQ scale then
    (pyInt ((origW : ℚ) * scale.getD 0), pyInt ((origH : ℚ) * scale.getD 0))
  else if truthyZ width && truthyZ height then
    if maintainAspect then
      let ratio : ℚ := min ((width.getD 0 : ℚ) / (origW : ℚ)) ((height.getD 0 : ℚ) / (origH : ℚ))
      (pyInt ((origW : ℚ) * ratio), pyInt ((origH : ℚ) * ratio))
    else
      (width.getD 0, height.getD 0)
  else if truthyZ width then
    let ratio : ℚ := (width.getD 0 : ℚ) / (origW : ℚ)
    (width.getD 0, pyInt ((origH : ℚ) * ratio))
  else if truthyZ height then
    let ratio : ℚ := (height.getD 0 : ℚ) / (origH : ℚ)
    (pyInt ((origW : ℚ) * ratio), height.getD 0)
  else
    (origW, origH)

/-- The extension allow-list `ImageResizer.SUPPORTED_FORMATS` (line 9).
In the Python source it is a `set`; its iteration order does not affect
`_get_images` because the collected result is sorted, so a list suffices. -/
def SUPPORTED_FORMATS : List String :=
  [".jpg", ".jpeg", ".png", ".bmp", ".gif", ".tiff", ".webp"]

/-- A `pathlib.Path.glob` over a directory listing with pattern `*<pat>`:
it selects exactly the names having `pat` as a literal suffix (`*` matches
any sequence of characters, and POSIX globbing is case-sensitive). -/
def globStar (folder : List String) (pat : String) : List String :=
  folder.filter (fun name => pat.data.isSuffixOf name.data)

/-- Embedding of `ImageResizer._get_images` (lines 138–143): for each
extension in the allow-list collect `glob("*<ext>")` and
`glob("*<EXT>")` (the all-uppercase variant), then sort the result. -/
def getImages (folder : List String) : List String :=
  List.insertionSort (· ≤ ·)
    (SUPPORTED_FORMATS.flatMap (fun ext => globStar folder ext ++ globStar folder ext.toUpper))

/-- Modelled from the spec: a filename matches the allow-list
case-insensitively when its lowercased form ends in one of the listed
extensions ("any mixture of upper and lower case in the extension"). -/
def spec_matchesAllowList (name : String) : Bool :=
  SUPPORTED_FORMATS.any (fun ext => ext.data.isSuffixOf name.toLower.data)

/-- pathlib `Path(p).name`: the final path component — the last
`/`-separated segment, with repeated and trailing slashes normalized away. -/
def pathName (p : String) : String :=
  ((p.splitOn "/").filter (fun s => s != "")).getLastD ""

/-- The stem of a single path component, as pathlib computes it: everything
before the last dot, unless that dot is the first or the last character of
the component (then the component is its own stem). -/
def stemOfName (name : String) : String :=
  let cs := name.data
  match cs.reverse.findIdx? (fun c => c = '.') with
  | none => name
  | some r =>
    let i := cs.length - 1 - r
    if 0 < i ∧ r ≠ 0 then String.mk (cs.take i) else name

/-- pathlib `Path(p).stem`: the stem of the final component. -/
def pathStem (p : String) : String := stemOfName (pathName p)

/-- The `filename.lower().endswith(ext)` test of line 42, over the
allow-list. -/
def hasImageExt (filename : String) : Bool :=
  SUPPORTED_FORMATS.any (fun ext => ext.data.isSuffixOf filename.toLower.data)

/-- Filename derivation from the URL (lines 40–43): the URL's last path
segment, defaulting to `"downloaded_image"` when empty, with `".jpg"`
appended when the name has no recognized image extension. -/
def deriveUrlFilename (url : String) : String :=
  let n := if pathName url = "" then "downloaded_image" else pathName url
  if hasImageExt n then n else n ++ ".jpg"

/-- Output filename determination in `process_from_url` (lines 40–47): an
explicit (truthy) filename argument wins over derivation from the URL, and
an explicit (truthy) output format rewrites the extension to its lowercased
spelling. -/
def computeFilename (url : String) (filenameArg : Option String)
    (outputFormat : Option String) : String :=
  let f0 := if truthyS filenameArg then filenameArg.getD "" else deriveUrlFilename url
  if truthyS outputFormat then
    pathStem f0 ++ "." ++ (outputFormat.getD "").toLower
  else f0

/-- A decoded PIL image, abstracted to the data the resizer inspects:
its dimensions and its color mode. -/
structure PyImage where
  width : ℤ
  height : ℤ
  mode : String
deriving DecidableEq

/-- `img.resize(new_size, LANCZOS)` at this level of abstraction: the
dimensions change, the mode is preserved. -/
def pyResize (img : PyImage) (size : ℤ × ℤ) : PyImage :=
  { img with width := size.1, height := size.2 }

/-- The keyword arguments of `resized.save` selected by lines 52–55. -/
structure SaveKwargs where
  quality : Option ℤ
  optimize : Bool
deriving DecidableEq

/-- Flattening onto an opaque white background (lines 58–60):
`Image.new('RGB', size, (255,255,255))` pasted with the alpha-channel mask.
The saved image becomes RGB with the same dimensions. -/
def flattenOnWhite (img : PyImage) : PyImage := { img with mode := "RGB" }

/-- Embedding of the save-preparation block, written identically in
`process_from_url` (lines 52–60) and `process_from_folder` (lines
119–126): select save kwargs, and flatten an RGBA image onto white exactly
when an explicit jpg/jpeg output format is requested. Returns the image
actually saved together with the kwargs. -/
def savePrep (resized : PyImage) (outputFormat : Option String) (quality : ℤ) :
    PyImage × SaveKwargs :=
  if truthyS outputFormat && ((outputFormat.getD "").toLower == "png") then
    (resized, { quality := none, optimize := true })
  else if resized.mode == "RGBA" && (truthyS outputFormat &&
      (((outputFormat.getD "").toLower == "jpg") ||
       ((outputFormat.getD "").toLower == "jpeg"))) then
    (flattenOnWhite resized, { quality := some quality, optimize := true })
  else
    (resized, { quality := some quality, optimize := true })

/-- Abstract environment for the effectful steps of `process_from_url`:
`fetch` models `requests.get` + `raise_for_status` (`none` = network
failure, timeout or non-2xx status, i.e. a `RequestException`); `decode`
models `Image.open` on the downloaded bytes (`none` = not a parseable
image, an exception); `saveOk` models `resized.save` (`false` = the save
raises). Every raise is caught by the `except` clauses of lines 66–71 and
turned into a `None` return. -/
structure UrlEnv where
  fetch : String → Option (List ℕ)
  decode : List ℕ → Option PyImage
  saveOk : PyImage → SaveKwargs → String → Bool

/-- Embedding of `ImageResizer.process_from_url` (lines 15–71): fetch,
decode, compute the target size, resize, determine the output filename,
prepare and save; any failing step yields `none`. -/
def processFromUrl (env : UrlEnv) (outputFolder url : String)
    (width height : Option ℤ) (scale : Option ℚ) (maintainAspect : Bool)
    (outputFormat : Option String) (quality : ℤ) (filename : Option String) :
    Option String :=
  match env.fetch url with
  | none => none
  | some bytes =>
    match env.decode bytes with
    | none => none
    | some img =>
      let newSize := calculateSize img.width img.height width height scale maintainAspect
      let resized := pyResize img newSize
      let fname := computeFilename url filename outputFormat
      let outputPath := outputFolder ++ "/" ++ fname
      let prep := savePrep resized outputFormat quality
      if env.saveOk prep.1 prep.2 outputPath then some outputPath else none

/-- Embedding of `ImageResizer.process_from_urls` (lines 73–83): a
sequential fold over the URL list that increments the success tally when
the single-item call returns a path. -/
def processFromUrls (env : UrlEnv) (outputFolder : String) (urls : List String)
    (width height : Option ℤ) (scale : Option ℚ) (maintainAspect : Bool)
    (outputFormat : Option String) (quality : ℤ) (filename : Option String) : ℕ :=
  urls.foldl (fun successful url =>
    if (processFromUrl env outputFolder url width height scale maintainAspect
        outputFormat quality filename).isSome then successful + 1 else successful) 0

/-- Modelled from the spec: image color modes that carry transparency
(an alpha channel), which the spec's "image with transparency" refers to. -/
def spec_hasTransparency (mode : String) : Bool :=
  ["RGBA", "LA", "PA"].contains mode

/-- Modelled from the spec: output formats lacking alpha support
(the JPEG family), into which a transparent image must be flattened. -/
def spec_lacksAlphaSupport (fmt : String) : Bool :=
  ["jpg", "jpeg"].contains fmt.toLower

/-- On nonnegative arguments, Python truncation coincides with the floor. -/
theorem pyInt_eq_floor {q : ℚ} (hq : 0 ≤ q) : pyInt q = ⌊q⌋ := by
  rw [pyInt, Int.tdiv_eq_ediv (Rat.num_nonneg.mpr hq) (Int.ofNat_nonneg _)]
  exact Rat.floor_def.symm

example : calculateSize 1000 500 none none (some (1/2)) true = (500, 250) := by with_unfolding_all decide

example : calculateSize 1000 500 (some 800) (some 800) none true = (800, 400) := by with_unfolding_all decide

example : calculateSize 1000 500 (some 800) (some 800) none false = (800, 800) := by with_unfolding_all decide

example : calculateSize 1000 500 (some 800) none none true = (800, 400) := by with_unfolding_all decide

/-- C1: for every original size (w, h) with w > 0 and h > 0 and every scale
s > 0, `_calculate_size` with scale = s returns the pair obtained by scaling
both components and applying Python `int()` (the spec's rounding, which it
fixes as truncation toward zero), independently of `maintain_aspect` and of
any width/height arguments. -/
theorem calculate_size_scale (w h : ℤ) (s : ℚ) (hw : 0 < w) (hh : 0 < h) (hs : 0 < s)
    (width height : Option ℤ) (ma : Bool) :
    calculateSize w h width height (some s) ma =
      (pyInt ((w : ℚ) * s), pyInt ((h : ℚ) * s)) := by
  have hs0 : s ≠ 0 := ne_of_gt hs
  simp [calculateSize, truthyQ, hs0]

/-- Witness for C1 at (w, h) = (1000, 500), s = 1/2, width = height = none. -/
theorem calculate_size_scale_witness :
    calculateSize 1000 500 none none (some (1/2)) true =
      (pyInt (((1000 : ℤ) : ℚ) * (1/2)), pyInt (((500 : ℤ) : ℚ) * (1/2))) :=
  calculate_size_scale 1000 500 (1/2) (by norm_num) (by norm_num) (by norm_num) none none true

/-- C5: with maintain_aspect = false, both width = W > 0 and height = H > 0
given, and no scale, `_calculate_size` returns exactly (W, H), for every
original size. -/
theorem calculate_size_no_aspect (w h W H : ℤ) (hW : 0 < W) (hH : 0 < H) :
    calculateSize w h (some W) (some H) none false = (W, H) := by
  have h1 : W ≠ 0 := ne_of_gt hW
  have h2 : H ≠ 0 := ne_of_gt hH
  simp [calculateSize, truthyQ, truthyZ, h1, h2]

/-- Witness for C5: scenario 3 of the spec, original (1000, 500) with
width = height = 800 and maintain_aspect = false gives (800, 800). -/
theorem calculate_size_no_aspect_witness :
    calculateSize 1000 500 (some 800) (some 800) none false = (800, 800) :=
  calculate_size_no_aspect 1000 500 800 800 (by norm_num) (by norm_num)

/-- C10: a sizing parameter supplied as zero is treated by `_calculate_size`
exactly as if it were absent (Python truthiness makes `0` falsy), and with
all sizing parameters zero the original size is returned unchanged. -/
theorem calculate_size_zero_params (w h : ℤ) (width height : Option ℤ) (scale : Option ℚ)
    (ma : Bool) :
    calculateSize w h width height (some 0) ma = calculateSize w h width height none ma ∧
    calculateSize w h (some 0) height scale ma = calculateSize w h none height scale ma ∧
    calculateSize w h width (some 0) scale ma = calculateSize w h width none scale ma ∧
    calculateSize w h (some 0) (some 0) (some 0) ma = (w, h) := by
  refine ⟨?_, ?_, ?_, ?_⟩ <;> simp [calculateSize, truthyQ, truthyZ]

/-- Truncation of a nonnegative rational is nonnegative. -/
theorem pyInt_nonneg {q : ℚ} (hq : 0 ≤ q) : 0 ≤ pyInt q := by
  rw [pyInt_eq_floor hq]
  exact Int.floor_nonneg.mpr hq

/-- C2 counterexample: at original size (2, 2) with scale = 1/10 — inside the
documented input domain (positive size, positive real scale) — the calculator
returns (0, 0), so the computed target is not a pair of positive integers. -/
theorem calculate_size_positive_cex :
    ¬ (0 < (calculateSize 2 2 none none (some (1/10)) true).1 ∧
       0 < (calculateSize 2 2 none none (some (1/10)) true).2) := by
  with_unfolding_all decide

/-- C2 amended: for positive original sizes and positive supplied sizing
parameters, both components of the calculator's result are nonnegative
integers (zero is possible when an exact scaled value falls below 1). -/
theorem calculate_size_nonneg (w h : ℤ) (hw : 0 < w) (hh : 0 < h)
    (width height : Option ℤ) (scale : Option ℚ)
    (hwidth : ∀ x, width = some x → 0 < x)
    (hheight : ∀ x, height = some x → 0 < x)
    (hscale : ∀ s, scale = some s → 0 < s) (ma : Bool) :
    0 ≤ (calculateSize w h width height scale ma).1 ∧
    0 ≤ (calculateSize w h width height scale ma).2 := by
  have hwq : (0 : ℚ) ≤ (w : ℚ) := by exact_mod_cast hw.le
  have hhq : (0 : ℚ) ≤ (h : ℚ) := by exact_mod_cast hh.le
  rcases scale with _ | s
  · rcases width with _ | W
    · rcases height with _ | H
      · simp [calculateSize, truthyQ, truthyZ]
        exact ⟨hw.le, hh.le⟩
      · have hH := hheight H rfl
        simp [calculateSize, truthyQ, truthyZ, ne_of_gt hH]
        have hr : (0 : ℚ) ≤ (H : ℚ) / (h : ℚ) := by positivity
        exact ⟨pyInt_nonneg (by positivity), hH.le⟩
    · have hW := hwidth W rfl
      rcases height with _ | H
      · simp [calculateSize, truthyQ, truthyZ, ne_of_gt hW]
        exact ⟨hW.le, pyInt_nonneg (by positivity)⟩
      · have hH := hheight H rfl
        simp only [calculateSize, truthyQ, truthyZ, Option.getD_some, decide_eq_true_eq,
          ne_of_gt hW, ne_of_gt hH, if_false, Bool.false_and]
        have hr : (0 : ℚ) ≤ min ((W : ℚ) / (w : ℚ)) ((H : ℚ) / (h : ℚ)) :=
          le_min (by positivity) (by positivity)
        rcases ma with _ | _
        · simpa [ne_of_gt hW, ne_of_gt hH] using ⟨hW.le, hH.le⟩
        · simp [ne_of_gt hW, ne_of_gt hH]
          exact ⟨pyInt_nonneg (mul_nonneg hwq hr), pyInt_nonneg (mul_nonneg hhq hr)⟩
  · have hs := hscale s rfl
    simp [calculateSize, truthyQ, ne_of_gt hs]
    exact ⟨pyInt_nonneg (mul_nonneg hwq hs.le), pyInt_nonneg (mul_nonneg hhq hs.le)⟩

/-- Witness for C2's amended theorem at (1000, 500), width 800, height none,
scale none. -/
theorem calculate_size_nonneg_witness :
    0 ≤ (calculateSize 1000 500 (some 800) none none true).1 ∧
    0 ≤ (calculateSize 1000 500 (some 800) none none true).2 :=
  calculate_size_nonneg 1000 500 (by norm_num) (by norm_num) (some 800) none none
    (fun x hx => by injection hx with hx0; omega)
    (fun x hx => nomatch hx) (fun s hs => nomatch hs) true

/-- C3: with maintain_aspect = true, both bounds W > 0 and H > 0 given and no
scale, the result fits in the requested box (first component ≤ W, second ≤ H),
at least one bound is attained exactly, the common factor applied to both axes
is min(W/w, H/h), and each component is within 1 of the exact scaled value
(the rounding is truncation). -/
theorem calculate_size_aspect_box (w h W H : ℤ) (hw : 0 < w) (hh : 0 < h)
    (hW : 0 < W) (hH : 0 < H) :
    (calculateSize w h (some W) (some H) none true).1 ≤ W ∧
    (calculateSize w h (some W) (some H) none true).2 ≤ H ∧
    ((calculateSize w h (some W) (some H) none true).1 = W ∨
     (calculateSize w h (some W) (some H) none true).2 = H) ∧
    calculateSize w h (some W) (some H) none true =
      (pyInt ((w : ℚ) * min ((W : ℚ) / (w : ℚ)) ((H : ℚ) / (h : ℚ))),
       pyInt ((h : ℚ) * min ((W : ℚ) / (w : ℚ)) ((H : ℚ) / (h : ℚ)))) ∧
    (w : ℚ) * min ((W : ℚ) / (w : ℚ)) ((H : ℚ) / (h : ℚ)) - 1 <
      ((calculateSize w h (some W) (some H) none true).1 : ℚ) ∧
    (h : ℚ) * min ((W : ℚ) / (w : ℚ)) ((H : ℚ) / (h : ℚ)) - 1 <
      ((calculateSize w h (some W) (some H) none true).2 : ℚ) := by
  have hwq : (0 : ℚ) < (w : ℚ) := by exact_mod_cast hw
  have hhq : (0 : ℚ) < (h : ℚ) := by exact_mod_cast hh
  set r : ℚ := min ((W : ℚ) / (w : ℚ)) ((H : ℚ) / (h : ℚ)) with hr
  have hred : calculateSize w h (some W) (some H) none true =
      (pyInt ((w : ℚ) * r), pyInt ((h : ℚ) * r)) := by
    simp [calculateSize, truthyQ, truthyZ, ne_of_gt hW, ne_of_gt hH, hr]
  have hr0 : 0 ≤ r := le_min (by positivity) (by positivity)
  have hwr : (0 : ℚ) ≤ (w : ℚ) * r := mul_nonneg hwq.le hr0
  have hhr : (0 : ℚ) ≤ (h : ℚ) * r := mul_nonneg hhq.le hr0
  have hcanW : (w : ℚ) * ((W : ℚ) / (w : ℚ)) = (W : ℚ) := by
    field_simp
  have hcanH : (h : ℚ) * ((H : ℚ) / (h : ℚ)) = (H : ℚ) := by
    field_simp
  have hboundW : (w : ℚ) * r ≤ (W : ℚ) := by
    calc (w : ℚ) * r ≤ (w : ℚ) * ((W : ℚ) / (w : ℚ)) :=
          mul_le_mul_of_nonneg_left (min_le_left _ _) hwq.le
    _ = (W : ℚ) := hcanW
  have hboundH : (h : ℚ) * r ≤ (H : ℚ) := by
    calc (h : ℚ) * r ≤ (h : ℚ) * ((H : ℚ) / (h : ℚ)) :=
          mul_le_mul_of_nonneg_left (min_le_right _ _) hhq.le
    _ = (H : ℚ) := hcanH
  have h1 : pyInt ((w : ℚ) * r) ≤ W := by
    rw [pyInt_eq_floor hwr]
    calc ⌊(w : ℚ) * r⌋ ≤ ⌊(W : ℚ)⌋ := Int.floor_le_floor hboundW
    _ = W := Int.floor_intCast W
  have h2 : pyInt ((h : ℚ) * r) ≤ H := by
    rw [pyInt_eq_floor hhr]
    calc ⌊(h : ℚ) * r⌋ ≤ ⌊(H : ℚ)⌋ := Int.floor_le_floor hboundH
    _ = H := Int.floor_intCast H
  have heq : pyInt ((w : ℚ) * r) = W ∨ pyInt ((h : ℚ) * r) = H := by
    rcases le_total ((W : ℚ) / (w : ℚ)) ((H : ℚ) / (h : ℚ)) with hc | hc
    · left
      rw [hr, min_eq_left hc, hcanW, pyInt_eq_floor (by positivity), Int.floor_intCast]
    · right
      rw [hr, min_eq_right hc, hcanH, pyInt_eq_floor (by positivity), Int.floor_intCast]
  have hl1 : (w : ℚ) * r - 1 < (pyInt ((w : ℚ) * r) : ℚ) := by
    rw [pyInt_eq_floor hwr]
    exact Int.sub_one_lt_floor _
  have hl2 : (h : ℚ) * r - 1 < (pyInt ((h : ℚ) * r) : ℚ) := by
    rw [pyInt_eq_floor hhr]
    exact Int.sub_one_lt_floor _
  rw [hred]
  exact ⟨h1, h2, heq, rfl, hl1, hl2⟩

/-- Witness for C3: scenario 2 of the spec, original (1000, 500) with
requested box (800, 800). -/
theorem calculate_size_aspect_box_witness :
    (calculateSize 1000 500 (some 800) (some 800) none true).1 ≤ 800 ∧
    (calculateSize 1000 500 (some 800) (some 800) none true).2 ≤ 800 ∧
    ((calculateSize 1000 500 (some 800) (some 800) none true).1 = 800 ∨
     (calculateSize 1000 500 (some 800) (some 800) none true).2 = 800) ∧
    calculateSize 1000 500 (some 800) (some 800) none true =
      (pyInt (((1000 : ℤ) : ℚ) * min (((800 : ℤ) : ℚ) / ((1000 : ℤ) : ℚ)) (((800 : ℤ) : ℚ) / ((500 : ℤ) : ℚ))),
       pyInt (((500 : ℤ) : ℚ) * min (((800 : ℤ) : ℚ) / ((1000 : ℤ) : ℚ)) (((800 : ℤ) : ℚ) / ((500 : ℤ) : ℚ)))) ∧
    ((1000 : ℤ) : ℚ) * min (((800 : ℤ) : ℚ) / ((1000 : ℤ) : ℚ)) (((800 : ℤ) : ℚ) / ((500 : ℤ) : ℚ)) - 1 <
      (((calculateSize 1000 500 (some 800) (some 800) none true).1 : ℤ) : ℚ) ∧
    ((500 : ℤ) : ℚ) * min (((800 : ℤ) : ℚ) / ((1000 : ℤ) : ℚ)) (((800 : ℤ) : ℚ) / ((500 : ℤ) : ℚ)) - 1 <
      (((calculateSize 1000 500 (some 800) (some 800) none true).2 : ℤ) : ℚ) :=
  calculate_size_aspect_box 1000 500 800 800 (by norm_num) (by norm_num) (by norm_num) (by norm_num)

/-- C4: the sizing policies are mutually exclusive with fixed priority
scale > (width and height) > width > height > unchanged; for positive
supplied parameters exactly the highest-priority supplied policy determines
the result, and with nothing supplied the original size is returned. -/
theorem calculate_size_priority (w h : ℤ) (width height : Option ℤ) (scale : Option ℚ)
    (hwidth : ∀ x, width = some x → 0 < x)
    (hheight : ∀ x, height = some x → 0 < x)
    (hscale : ∀ s, scale = some s → 0 < s) (ma : Bool) :
    calculateSize w h width height scale ma =
      match scale, width, height with
      | some s, _, _ => (pyInt ((w : ℚ) * s), pyInt ((h : ℚ) * s))
      | none, some W, some H =>
        if ma then
          (pyInt ((w : ℚ) * min ((W : ℚ) / (w : ℚ)) ((H : ℚ) / (h : ℚ))),
           pyInt ((h : ℚ) * min ((W : ℚ) / (w : ℚ)) ((H : ℚ) / (h : ℚ))))
        else (W, H)
      | none, some W, none => (W, pyInt ((h : ℚ) * ((W : ℚ) / (w : ℚ))))
      | none, none, some H => (pyInt ((w : ℚ) * ((H : ℚ) / (h : ℚ))), H)
      | none, none, none => (w, h) := by
  rcases scale with _ | s
  · rcases width with _ | W
    · rcases height with _ | H
      · simp [calculateSize, truthyQ, truthyZ]
      · have hH := hheight H rfl
        simp [calculateSize, truthyQ, truthyZ, ne_of_gt hH]
    · have hW := hwidth W rfl
      rcases height with _ | H
      · simp [calculateSize, truthyQ, truthyZ, ne_of_gt hW]
      · have hH := hheight H rfl
        simp [calculateSize, truthyQ, truthyZ, ne_of_gt hW, ne_of_gt hH]
  · have hs := hscale s rfl
    simp [calculateSize, truthyQ, ne_of_gt hs]

/-- Witness for C4 at (1000, 500) with only width = 800 supplied. -/
theorem calculate_size_priority_witness :
    calculateSize 1000 500 (some 800) none none true =
      (800, pyInt (((500 : ℤ) : ℚ) * ((((800 : ℤ)) : ℚ) / ((1000 : ℤ) : ℚ)))) :=
  calculate_size_priority 1000 500 (some 800) none none
    (fun x hx => by injection hx with hx0; omega)
    (fun x hx => nomatch hx) (fun s hs => nomatch hs) true

theorem mem_globStar {folder : List String} {pat name : String} :
    name ∈ globStar folder pat ↔ name ∈ folder ∧ pat.data <:+ name.data := by
  simp [globStar, List.mem_filter]

theorem not_suffix_both {p q s : List Char} (hpq : ¬ p <:+ q) (hqp : ¬ q <:+ p)
    (hp : p <:+ s) (hq : q <:+ s) : False :=
  (List.suffix_or_suffix_of_suffix hp hq).elim hpq hqp

theorem patterns_case :
    ∀ ext ∈ SUPPORTED_FORMATS,
      (¬ ext.data <:+ ext.toUpper.data) ∧ (¬ ext.toUpper.data <:+ ext.data) := by
  with_unfolding_all decide

theorem patterns_cross :
    SUPPORTED_FORMATS.Pairwise (fun e1 e2 =>
      (¬ e1.data <:+ e2.data) ∧ (¬ e2.data <:+ e1.data) ∧
      (¬ e1.data <:+ e2.toUpper.data) ∧ (¬ e2.toUpper.data <:+ e1.data) ∧
      (¬ e1.toUpper.data <:+ e2.data) ∧ (¬ e2.data <:+ e1.toUpper.data) ∧
      (¬ e1.toUpper.data <:+ e2.toUpper.data) ∧ (¬ e2.toUpper.data <:+ e1.toUpper.data)) := by
  with_unfolding_all decide

theorem globStar_disjoint {p q : String} (hpq : ¬ p.data <:+ q.data)
    (hqp : ¬ q.data <:+ p.data) (folder : List String) :
    List.Disjoint (globStar folder p) (globStar folder q) := by
  intro name h1 h2
  rw [mem_globStar] at h1 h2
  exact not_suffix_both hpq hqp h1.2 h2.2

theorem getImages_nodup_aux {folder : List String} (hnd : folder.Nodup) :
    (SUPPORTED_FORMATS.flatMap
      (fun ext => globStar folder ext ++ globStar folder ext.toUpper)).Nodup := by
  rw [List.nodup_flatMap]
  constructor
  · intro ext hext
    exact List.Nodup.append (hnd.filter _) (hnd.filter _)
      (globStar_disjoint (patterns_case ext hext).1 (patterns_case ext hext).2 folder)
  · refine patterns_cross.imp ?_
    rintro e1 e2 ⟨a1, a2, a3, a4, a5, a6, a7, a8⟩
    intro name h1 h2
    rw [List.mem_append] at h1 h2
    rcases h1 with h1 | h1 <;> rcases h2 with h2 | h2 <;> rw [mem_globStar] at h1 h2
    · exact not_suffix_both a1 a2 h1.2 h2.2
    · exact not_suffix_both a3 a4 h1.2 h2.2
    · exact not_suffix_both a5 a6 h1.2 h2.2
    · exact not_suffix_both a7 a8 h1.2 h2.2

theorem mem_getImages {folder : List String} {name : String} :
    name ∈ getImages folder ↔
      name ∈ folder ∧ ∃ ext ∈ SUPPORTED_FORMATS,
        ext.data <:+ name.data ∨ ext.toUpper.data <:+ name.data := by
  rw [getImages, List.mem_insertionSort]
  simp only [List.mem_flatMap, List.mem_append, mem_globStar]
  constructor
  · rintro ⟨ext, hext, (⟨hm, hs⟩ | ⟨hm, hs⟩)⟩
    · exact ⟨hm, ext, hext, Or.inl hs⟩
    · exact ⟨hm, ext, hext, Or.inr hs⟩
  · rintro ⟨hm, ext, hext, (hs | hs)⟩
    · exact ⟨ext, hext, Or.inl ⟨hm, hs⟩⟩
    · exact ⟨ext, hext, Or.inr ⟨hm, hs⟩⟩

/-- C6 counterexample: the file `photo.Jpg` matches the allow-list
case-insensitively, yet `_get_images` does not select it — the globs only
cover the all-lowercase and all-uppercase spellings of each extension. -/
theorem get_images_cex :
    spec_matchesAllowList "photo.Jpg" = true ∧ getImages ["photo.Jpg"] = [] := by
  with_unfolding_all decide

/-- C6 amended: on a duplicate-free directory listing, `_get_images` returns
a sorted, duplicate-free list containing exactly the files whose name ends
in an allow-list extension spelled either all-lowercase or all-uppercase
(mixed-case extensions are not matched). -/
theorem get_images_enumeration (folder : List String) (hnd : folder.Nodup) :
    List.Sorted (· ≤ ·) (getImages folder) ∧ (getImages folder).Nodup ∧
    ∀ name, name ∈ getImages folder ↔
      name ∈ folder ∧ ∃ ext ∈ SUPPORTED_FORMATS,
        ext.data <:+ name.data ∨ ext.toUpper.data <:+ name.data := by
  refine ⟨List.sorted_insertionSort _ _, ?_, fun name => mem_getImages⟩
  exact ((List.perm_insertionSort _ _).nodup_iff).mpr (getImages_nodup_aux hnd)

/-- Witness for C6's amended theorem on a small concrete directory. -/
theorem get_images_enumeration_witness :
    List.Sorted (· ≤ ·) (getImages ["b.png", "a.PNG", "c.txt", "a.jpeg"]) ∧
    (getImages ["b.png", "a.PNG", "c.txt", "a.jpeg"]).Nodup ∧
    ∀ name, name ∈ getImages ["b.png", "a.PNG", "c.txt", "a.jpeg"] ↔
      name ∈ ["b.png", "a.PNG", "c.txt", "a.jpeg"] ∧ ∃ ext ∈ SUPPORTED_FORMATS,
        ext.data <:+ name.data ∨ ext.toUpper.data <:+ name.data :=
  get_images_enumeration ["b.png", "a.PNG", "c.txt", "a.jpeg"] (by with_unfolding_all decide)

example : computeFilename "http://host/pics/cat.png" none none = "cat.png" := by
  with_unfolding_all decide

example : computeFilename "http://host/pics/cat.png" none (some "webp") = "cat.webp" := by
  with_unfolding_all decide

example : computeFilename "http://host/q" none none = "q.jpg" := by
  with_unfolding_all decide

example : (savePrep ⟨10, 10, "RGBA"⟩ (some "JPG") 95).1 = ⟨10, 10, "RGB"⟩ := by
  with_unfolding_all decide

example : (savePrep ⟨10, 10, "RGBA"⟩ none 95).1 = ⟨10, 10, "RGBA"⟩ := by
  with_unfolding_all decide

theorem foldl_count_eq_length_filter {α : Type} (p : α → Bool) (l : List α) (n : ℕ) :
    l.foldl (fun acc x => if p x then acc + 1 else acc) n = n + (l.filter p).length := by
  induction l generalizing n with
  | nil => simp
  | cons x xs ih => cases h : p x <;> simp [h, ih] <;> omega

/-- C7: `process_from_url` returns the output path exactly when fetch,
decode and save all succeed; it returns `none` when any of them fails; and
`process_from_urls` processes every URL of the batch and tallies exactly
the successful ones, so one failed item neither aborts the batch nor is
counted. -/
theorem process_from_url_boundary (env : UrlEnv) (outputFolder : String)
    (urls : List String) (url : String) (width height : Option ℤ) (scale : Option ℚ)
    (ma : Bool) (outputFormat : Option String) (quality : ℤ) (filename : Option String) :
    (∀ p, processFromUrl env outputFolder url width height scale ma outputFormat
        quality filename = some p ↔
      (∃ bytes img, env.fetch url = some bytes ∧ env.decode bytes = some img ∧
        env.saveOk
          (savePrep (pyResize img (calculateSize img.width img.height width height
            scale ma)) outputFormat quality).1
          (savePrep (pyResize img (calculateSize img.width img.height width height
            scale ma)) outputFormat quality).2
          (outputFolder ++ "/" ++ computeFilename url filename outputFormat) = true) ∧
      p = outputFolder ++ "/" ++ computeFilename url filename outputFormat) ∧
    (env.fetch url = none →
      processFromUrl env outputFolder url width height scale ma outputFormat
        quality filename = none) ∧
    (∀ bytes, env.fetch url = some bytes → env.decode bytes = none →
      processFromUrl env outputFolder url width height scale ma outputFormat
        quality filename = none) ∧
    (∀ bytes img, env.fetch url = some bytes → env.decode bytes = some img →
      env.saveOk
        (savePrep (pyResize img (calculateSize img.width img.height width height
          scale ma)) outputFormat quality).1
        (savePrep (pyResize img (calculateSize img.width img.height width height
          scale ma)) outputFormat quality).2
        (outputFolder ++ "/" ++ computeFilename url filename outputFormat) = false →
      processFromUrl env outputFolder url width height scale ma outputFormat
        quality filename = none) ∧
    processFromUrls env outputFolder urls width height scale ma outputFormat
        quality filename =
      (urls.filter (fun u => (processFromUrl env outputFolder u width height scale ma
        outputFormat quality filename).isSome)).length := by
  refine ⟨?_, ?_, ?_, ?_, ?_⟩
  · intro p
    constructor
    · intro hp
      rcases hfetch : env.fetch url with _ | bytes
      · simp [processFromUrl, hfetch] at hp
      rcases hdec : env.decode bytes with _ | img
      · simp [processFromUrl, hfetch, hdec] at hp
      simp only [processFromUrl, hfetch, hdec] at hp
      split at hp
      next hsave =>
        injection hp with hp0
        refine ⟨⟨bytes, img, ?_, ?_, hsave⟩, hp0.symm⟩ <;> simp [hfetch, hdec]
      next hsave => exact absurd hp (by simp)
    · rintro ⟨⟨bytes, img, hfetch, hdec, hsave⟩, rfl⟩
      simp only [processFromUrl, hfetch, hdec]
      simp [hsave]
  · intro hfetch
    simp [processFromUrl, hfetch]
  · intro bytes hfetch hdec
    simp [processFromUrl, hfetch, hdec]
  · intro bytes img hfetch hdec hsave
    simp only [processFromUrl, hfetch, hdec]
    simp [hsave]
  · rw [processFromUrls, foldl_count_eq_length_filter _ urls 0, Nat.zero_add]

/-- C8 counterexample: a grayscale-with-alpha (`LA`) image saved with the
explicit output format `jpg` — a format lacking alpha support — is passed
to `save` unchanged: the flattening branch tests for the mode `RGBA` only,
so this transparent image is not flattened onto white. -/
theorem flatten_cex :
    spec_hasTransparency "LA" = true ∧ spec_lacksAlphaSupport "jpg" = true ∧
    (savePrep ⟨100, 100, "LA"⟩ (some "jpg") 95).1 = ⟨100, 100, "LA"⟩ := by
  with_unfolding_all decide

/-- C8 amended: the saved image is the white-flattened one exactly when the
resized image's mode is `RGBA` and a truthy output format lowercasing to
`jpg` or `jpeg` is supplied; in every other case (other transparent modes,
other formats, or no explicit format even when the filename implies JPEG)
the image is saved unchanged. The same block occurs verbatim in the URL
path and in the folder path. -/
theorem save_prep_flatten (resized : PyImage) (outputFormat : Option String) (quality : ℤ) :
    (savePrep resized outputFormat quality).1 =
      if resized.mode = "RGBA" ∧ truthyS outputFormat = true ∧
          ((outputFormat.getD "").toLower = "jpg" ∨
           (outputFormat.getD "").toLower = "jpeg") then
        flattenOnWhite resized
      else resized := by
  rw [savePrep]
  by_cases hpng : (truthyS outputFormat && ((outputFormat.getD "").toLower == "png")) = true
  · have hp : (outputFormat.getD "").toLower = "png" := by
      simp only [Bool.and_eq_true, beq_iff_eq] at hpng
      exact hpng.2
    rw [if_pos hpng, if_neg]
    rintro ⟨-, -, (hc | hc)⟩ <;> rw [hp] at hc <;> exact absurd hc (by decide)
  · rw [if_neg hpng]
    by_cases hjpg : (resized.mode == "RGBA" && (truthyS outputFormat &&
        (((outputFormat.getD "").toLower == "jpg") ||
         ((outputFormat.getD "").toLower == "jpeg")))) = true
    · rw [if_pos hjpg, if_pos]
      simp only [Bool.and_eq_true, Bool.or_eq_true, beq_iff_eq] at hjpg
      exact ⟨hjpg.1, hjpg.2.1, hjpg.2.2⟩
    · rw [if_neg hjpg, if_neg]
      rintro ⟨hm, ht, hor⟩
      apply hjpg
      simp only [Bool.and_eq_true, Bool.or_eq_true, beq_iff_eq]
      exact ⟨hm, ht, hor⟩

/-- C9: whenever a truthy output format is supplied, the saved filename is
the stem of the explicit-or-derived filename followed by a dot and the
lowercased format; in particular the override always replaces the extension
of an explicitly supplied output filename. -/
theorem output_format_rewrites_filename (url : String) (filenameArg : Option String)
    (fmt : String) (hfmt : fmt ≠ "") :
    computeFilename url filenameArg (some fmt) =
      pathStem (if truthyS filenameArg then filenameArg.getD ""
                else deriveUrlFilename url) ++ "." ++ fmt.toLower ∧
    ∀ f : String, f ≠ "" →
      computeFilename url (some f) (some fmt) = pathStem f ++ "." ++ fmt.toLower := by
  have ht : truthyS (some fmt) = true := by simp [truthyS, hfmt]
  constructor
  · rw [computeFilename]
    simp only [ht, if_true, Option.getD_some]
  · intro f hf
    have htf : truthyS (some f) = true := by simp [truthyS, hf]
    rw [computeFilename]
    simp only [ht, htf, if_true, Option.getD_some]

/-- Witness for C9: explicit filename "photo.png" with format override
"webp" yields "photo.webp" — the original extension is replaced. -/
theorem output_format_rewrites_filename_witness :
    (computeFilename "http://host/a.png" (some "photo.png") (some "webp") =
      pathStem (if truthyS (some "photo.png") then (some "photo.png").getD ""
                else deriveUrlFilename "http://host/a.png") ++ "." ++ "webp".toLower ∧
    ∀ f : String, f ≠ "" →
      computeFilename "http://host/a.png" (some f) (some "webp") =
        pathStem f ++ "." ++ "webp".toLower) :=
  output_format_rewrites_filename "http://host/a.png" (some "photo.png") "webp"
    (by with_unfolding_all decide)

end ImageResizer
